import Mathlib

set_option maxHeartbeats 1000000

/-!
Verification of the blob tree (a key-value separated LSM storage engine):
the encoded-entry codec, the index-tree facade, the blob-tree read path,
the flush pipeline with its size gate and commit ordering, and the range
mapper. Definitions follow the source; the inner LSM engine, the value log
and the segment writers are external collaborators and are modelled from
the specification where noted.
-/

/-- A byte sequence; each list element stands for one byte. -/
abbrev Bytes := List Nat

/-- A handle locating the bytes of a value inside a value-log segment.
The field order of the struct is segment id first, then offset, matching
the source struct. -/
structure ValueHandle where
  segment_id : Nat
  offset : Nat
deriving DecidableEq, Repr

/-- The value physically stored inside the LSM index: either inline bytes
or a handle into the value log. -/
inductive MaybeInlineValue where
  | Inline (bytes : Bytes)
  | Indirect (handle : ValueHandle)
deriving DecidableEq, Repr

/-- Big-endian byte encoding of an unsigned 64-bit integer, most
significant byte first. The numeric literals are 2 to the powers
56, 48, 40, 32, 24, 16 and 8. -/
def be64 (n : Nat) : Bytes :=
  [n / 72057594037927936 % 256, n / 281474976710656 % 256,
   n / 1099511627776 % 256, n / 4294967296 % 256,
   n / 16777216 % 256, n / 65536 % 256, n / 256 % 256, n % 256]

/-- Numeric value of a big-endian byte sequence. -/
def beVal (bs : Bytes) : Nat := bs.foldl (fun a b => a * 256 + b) 0

/-- Wire form of a handle: offset first, then segment id, both as
unsigned 64-bit big-endian integers, as in the source serializer. -/
def ValueHandle.serialize (h : ValueHandle) : Bytes :=
  be64 h.offset ++ be64 h.segment_id

/-- Wire form of an encoded entry: tag byte 0 for inline followed by the
64-bit big-endian length and the raw bytes, tag byte 1 for indirect
followed by the serialized handle. -/
def MaybeInlineValue.serialize : MaybeInlineValue → Bytes
  | .Inline bytes => 0 :: (be64 bytes.length ++ bytes)
  | .Indirect h => 1 :: h.serialize

/-- Read one byte from the input, returning it with the remaining input. -/
def readU8 : Bytes → Option (Nat × Bytes)
  | [] => none
  | b :: rest => some (b, rest)

/-- Read exactly n bytes from the input, failing on a short read. -/
def readExact (n : Nat) (l : Bytes) : Option (Bytes × Bytes) :=
  if n ≤ l.length then some (l.take n, l.drop n) else none

/-- Read an unsigned 64-bit big-endian integer from the input. -/
def readBe64 (l : Bytes) : Option (Nat × Bytes) :=
  match readExact 8 l with
  | some (bs, rest) => some (beVal bs, rest)
  | none => none

/-- Structured deserialization error; the io constructor stands for the
short-read and I/O failures the source surfaces through its error type. -/
inductive DeserializeError where
  | io
deriving DecidableEq, Repr

/-- Outcome of running a deserializer: success together with the unread
remainder of the input, a structured error, or an abort of the process
(the source reaches an abort through an expect call or a panic branch). -/
inductive DeserOutcome (α : Type) where
  | ok (v : α) (rest : Bytes)
  | err (e : DeserializeError)
  | panicked (msg : String)
deriving DecidableEq, Repr

/-- Deserializer for a handle, as in the source: it reads offset first,
then segment id, and places each into the struct field of the same name. -/
def ValueHandle.deserialize (l : Bytes) : DeserOutcome ValueHandle :=
  match readBe64 l with
  | none => .err .io
  | some (offset, l1) =>
    match readBe64 l1 with
    | none => .err .io
    | some (sid, l2) => .ok ⟨sid, offset⟩ l2

/-- Deserializer for an encoded entry, as in the source: tag 0 reads a
64-bit length and that many bytes, tag 1 reads a handle, and any other
tag byte aborts with the message Invalid tag (the source panics there
instead of returning a structured error). -/
def MaybeInlineValue.deserialize (l : Bytes) : DeserOutcome MaybeInlineValue :=
  match readU8 l with
  | none => .err .io
  | some (tag, l1) =>
    if tag = 0 then
      match readBe64 l1 with
      | none => .err .io
      | some (len, l2) =>
        match readExact len l2 with
        | none => .err .io
        | some (bytes, l3) => .ok (.Inline bytes) l3
    else if tag = 1 then
      match ValueHandle.deserialize l1 with
      | .ok h l2 => .ok (.Indirect h) l2
      | .err e => .err e
      | .panicked m => .panicked m
    else
      .panicked "Invalid tag"

/-- Well-formedness of an encoded entry: the quantities the serializer
casts to unsigned 64-bit integers fit in 64 bits. The numeric literal is
2 to the power 64. -/
def MaybeInlineValue.WellFormed : MaybeInlineValue → Prop
  | .Inline bytes => bytes.length < 18446744073709551616
  | .Indirect h =>
      h.offset < 18446744073709551616 ∧ h.segment_id < 18446744073709551616

instance (e : MaybeInlineValue) : Decidable e.WellFormed :=
  match e with
  | .Inline bytes =>
      (inferInstance : Decidable (bytes.length < 18446744073709551616))
  | .Indirect h =>
      (inferInstance : Decidable (h.offset < 18446744073709551616 ∧
        h.segment_id < 18446744073709551616))

lemma be64_length (n : Nat) : (be64 n).length = 8 := rfl

lemma beVal_be64 (n : Nat) (h : n < 18446744073709551616) :
    beVal (be64 n) = n := by
  simp [be64, beVal]
  omega

lemma readExact_append (xs s : Bytes) :
    readExact xs.length (xs ++ s) = some (xs, s) := by
  simp [readExact, List.take_left, List.drop_left]

lemma readBe64_be64_append (n : Nat) (s : Bytes)
    (h : n < 18446744073709551616) : readBe64 (be64 n ++ s) = some (n, s) := by
  have hx := readExact_append (be64 n) s
  rw [be64_length] at hx
  simp [readBe64, hx, beVal_be64 n h]

/-- Core codec fact: deserializing the serialization of a well-formed
entry followed by arbitrary trailing bytes succeeds, returns the entry,
and leaves exactly the trailing bytes unread. -/
lemma deserialize_serialize_append (e : MaybeInlineValue) (s : Bytes)
    (h : e.WellFormed) :
    MaybeInlineValue.deserialize (e.serialize ++ s) = .ok e s := by
  cases e with
  | Inline bytes =>
    have hb : bytes.length < 18446744073709551616 := h
    have h1 : readBe64 (be64 bytes.length ++ (bytes ++ s)) =
        some (bytes.length, bytes ++ s) := readBe64_be64_append _ _ hb
    simp [MaybeInlineValue.serialize, MaybeInlineValue.deserialize, readU8,
      List.append_assoc, h1, readExact_append]
  | Indirect hdl =>
    obtain ⟨ho, hs⟩ := h
    have h1 : readBe64 (be64 hdl.offset ++ (be64 hdl.segment_id ++ s)) =
        some (hdl.offset, be64 hdl.segment_id ++ s) :=
      readBe64_be64_append _ _ ho
    have h2 : readBe64 (be64 hdl.segment_id ++ s) =
        some (hdl.segment_id, s) := readBe64_be64_append _ _ hs
    simp [MaybeInlineValue.serialize, ValueHandle.serialize,
      MaybeInlineValue.deserialize, ValueHandle.deserialize, readU8,
      List.append_assoc, h1, h2]

/-- C4: codec round trip. For every well-formed encoded entry, inline or
indirect, deserializing the bytes produced by serializing it yields the
same entry with no unread remainder; in particular the indirect wire
order, offset then segment id, is read back into the matching struct
fields. -/
theorem c4_roundtrip (e : MaybeInlineValue) (h : e.WellFormed) :
    MaybeInlineValue.deserialize e.serialize = .ok e [] := by
  have hx := deserialize_serialize_append e [] h
  simpa using hx

/-- C4 witness: the round trip evaluated on a concrete indirect entry and
a concrete inline entry. -/
theorem c4_roundtrip_witness :
    MaybeInlineValue.deserialize
      (MaybeInlineValue.serialize (.Indirect ⟨5, 7⟩)) =
      .ok (.Indirect ⟨5, 7⟩) [] ∧
    MaybeInlineValue.deserialize
      (MaybeInlineValue.serialize (.Inline [1, 2, 3])) =
      .ok (.Inline [1, 2, 3]) [] :=
  ⟨c4_roundtrip (.Indirect ⟨5, 7⟩) (by decide),
   c4_roundtrip (.Inline [1, 2, 3]) (by decide)⟩

/-- C6: decode failure behavior. A short read does return a structured
error, but an unknown tag byte (here the byte 2) makes the deserializer
abort the process with the message Invalid tag instead of returning a
structured data error, contradicting the claim that decoding never
crashes and treats unknown tags as data errors. -/
theorem c6_unknown_tag_panics :
    MaybeInlineValue.deserialize [] = .err .io ∧
    MaybeInlineValue.deserialize [0, 0] = .err .io ∧
    MaybeInlineValue.deserialize [2] = .panicked "Invalid tag" ∧
    MaybeInlineValue.deserialize [255] = .panicked "Invalid tag" :=
  ⟨rfl, rfl, rfl, rfl⟩

/-- C10: decode ignores trailing input. Deserializing the serialization
of a well-formed entry concatenated with an arbitrary suffix succeeds,
returns the entry, and returns the suffix untouched as the unread
remainder, so only the needed prefix is consumed. -/
theorem c10_trailing_input_ignored (e : MaybeInlineValue) (s : Bytes)
    (h : e.WellFormed) :
    MaybeInlineValue.deserialize (e.serialize ++ s) = .ok e s :=
  deserialize_serialize_append e s h

/-- C10 witness: trailing bytes after a concrete inline entry and after a
concrete indirect entry are left unread. -/
theorem c10_trailing_input_ignored_witness :
    MaybeInlineValue.deserialize
      (MaybeInlineValue.serialize (.Inline [1, 2]) ++ [9, 9, 9]) =
      .ok (.Inline [1, 2]) [9, 9, 9] ∧
    MaybeInlineValue.deserialize
      (MaybeInlineValue.serialize (.Indirect ⟨4, 11⟩) ++ [7]) =
      .ok (.Indirect ⟨4, 11⟩) [7] :=
  ⟨c10_trailing_input_ignored (.Inline [1, 2]) [9, 9, 9] (by decide),
   c10_trailing_input_ignored (.Indirect ⟨4, 11⟩) [7] (by decide)⟩

/-- Modelled from the spec: the entry type of an internal key, Value or
Tombstone; the inner LSM engine defining it is not among the sources. -/
inductive ValueType where
  | Value
  | Tombstone
deriving DecidableEq, Repr

/-- Modelled from the spec: the internal key of the LSM index, the triple
of user key, sequence number and entry type. -/
structure InternalKey where
  user_key : Bytes
  seqno : Nat
  value_type : ValueType
deriving DecidableEq, Repr

/-- Modelled from the spec: one entry of a memtable or of an index
segment, an internal key together with the raw stored value bytes. -/
structure MemEntry where
  key : InternalKey
  value : Bytes
deriving DecidableEq, Repr

/-- Modelled from the spec: the state of the inner LSM index engine, an
active memtable, the committed index segments each named by a segment id,
and the id the next rotation will hand out. The engine itself is an
external collaborator and is not among the sources. -/
structure LsmTree where
  memtable : List MemEntry
  segments : List (Nat × List MemEntry)
  next_segment_id : Nat
deriving DecidableEq, Repr

/-- Modelled from the spec: inserting into the inner engine appends a
Value entry to the active memtable. -/
def LsmTree.insert (t : LsmTree) (k v : Bytes) (seqno : Nat) : LsmTree :=
  ⟨t.memtable ++ [⟨⟨k, seqno, .Value⟩, v⟩], t.segments, t.next_segment_id⟩

/-- Modelled from the spec: removing from the inner engine appends a
Tombstone entry with an empty payload to the active memtable. -/
def LsmTree.remove (t : LsmTree) (k : Bytes) (seqno : Nat) : LsmTree :=
  ⟨t.memtable ++ [⟨⟨k, seqno, .Tombstone⟩, []⟩], t.segments, t.next_segment_id⟩

/-- All entries visible to a read: the memtable and every committed
segment. -/
def LsmTree.allEntries (t : LsmTree) : List MemEntry :=
  t.memtable ++ (t.segments.map Prod.snd).flatten

/-- Modelled from the spec: the most recent version of a user key, the
entry with the highest sequence number among those carrying the key. -/
def latestFor (k : Bytes) (es : List MemEntry) : Option MemEntry :=
  es.foldl (fun acc e =>
    if e.key.user_key = k then
      match acc with
      | none => some e
      | some b => if b.key.seqno < e.key.seqno then some e else some b
    else acc) none

/-- Modelled from the spec: a point lookup in the inner engine returns
the raw bytes of the most recent version of the key, and returns nothing
when the key is absent or its most recent version is a tombstone. -/
def LsmTree.get (t : LsmTree) (k : Bytes) : Option Bytes :=
  match latestFor k t.allEntries with
  | none => none
  | some e =>
    match e.key.value_type with
    | .Tombstone => none
    | .Value => some e.value

/-- Modelled from the spec: rotation atomically yields the segment id and
the frozen memtable and leaves a fresh empty memtable, or yields nothing
when there is no memtable content to rotate. -/
def LsmTree.rotateMemtable (t : LsmTree) :
    Option (Nat × List MemEntry × LsmTree) :=
  if t.memtable = [] then none
  else some (t.next_segment_id, t.memtable,
    ⟨[], t.segments, t.next_segment_id + 1⟩)

/-- Modelled from the spec: the index-segment writer, accumulating the
entries written to the new index segment in order. -/
structure SegmentWriter where
  entries : List MemEntry
deriving DecidableEq, Repr

def SegmentWriter.write (w : SegmentWriter) (e : MemEntry) : SegmentWriter :=
  ⟨w.entries ++ [e]⟩

/-- Modelled from the spec: finalization of the segment writer; the work
is on-disk bookkeeping, so on this state it is the identity. -/
def SegmentWriter.finish (w : SegmentWriter) : SegmentWriter := w

/-- Modelled from the spec: handing the finalized writer to the inner
engine commits its entries as a new visible segment under the id obtained
at rotation. -/
def LsmTree.consumeWriter (t : LsmTree) (sid : Nat) (w : SegmentWriter) :
    LsmTree :=
  ⟨t.memtable, t.segments ++ [(sid, w.entries)], t.next_segment_id⟩

/-- Modelled from the spec: the value-log segment writer; it exposes its
segment id, the offset the next write will produce, and an append
operation recording the key and the bytes at the current offset. -/
structure BlobWriter where
  segment_id : Nat
  entries : List (Nat × Bytes × Bytes)
  offset : Nat
deriving DecidableEq, Repr

def BlobWriter.write (w : BlobWriter) (k v : Bytes) : BlobWriter :=
  ⟨w.segment_id, w.entries ++ [(w.offset, k, v)], w.offset + v.length⟩

/-- Modelled from the spec: the value log, with the ids of the registered
segments, the contents of each registered segment, and the id handed to
the next writer. The value log is an external collaborator and is not
among the sources. -/
structure ValueLog where
  registered : List Nat
  segments : List (Nat × List (Nat × Bytes × Bytes))
  next_id : Nat
deriving DecidableEq, Repr

def ValueLog.getWriter (vl : ValueLog) : BlobWriter := ⟨vl.next_id, [], 0⟩

/-- Modelled from the spec: registering a writer commits its segment,
making its id registered and its contents readable. -/
def ValueLog.register (vl : ValueLog) (w : BlobWriter) : ValueLog :=
  ⟨vl.registered ++ [w.segment_id], vl.segments ++ [(w.segment_id, w.entries)],
   vl.next_id + 1⟩

/-- Modelled from the spec: a value-log read returns the bytes recorded
at the offset of the handle inside the registered segment the handle
names, and returns nothing for an unknown segment or offset. -/
def ValueLog.get (vl : ValueLog) (h : ValueHandle) : Option Bytes :=
  match vl.segments.find? (fun p => p.1 == h.segment_id) with
  | none => none
  | some (_, es) =>
    match es.find? (fun r => r.1 == h.offset) with
    | none => none
    | some r => some r.2.2

/-- Error type of the value log, standing for its I/O failures. -/
inductive VlogError where
  | io
deriving DecidableEq, Repr

/-- Error type of the tree crate; value-log errors convert into it, as
the source converts them with an into call. -/
inductive TreeError where
  | io
  | valueLog (e : VlogError)
deriving DecidableEq, Repr

/-- Outcome of an operation that in the source either returns a value or
aborts the process through an expect call. -/
inductive GetOutcome (α : Type) where
  | ok (v : α)
  | panicked (msg : String)
deriving DecidableEq, Repr

/-- Body of the get_internal method of the index-tree facade, with the
result of the underlying point lookup abstracted as the argument: an
error from the lookup aborts with the message oh no, an absent key
returns none, and a present raw value is deserialized, a deserialization
error aborting with the message should deserialize. -/
def getInternalOn (r : Except TreeError (Option Bytes)) :
    GetOutcome (Option MaybeInlineValue) :=
  match r with
  | .error _ => .panicked "oh no"
  | .ok none => .ok none
  | .ok (some item) =>
    match MaybeInlineValue.deserialize item with
    | .ok v _ => .ok (some v)
    | .err _ => .panicked "should deserialize"
    | .panicked m => .panicked m

/-- The get_internal method of the index-tree facade applied to the
modelled inner engine, whose pure lookup never raises an I/O error. -/
def LsmTree.getInternal (t : LsmTree) (k : Bytes) :
    GetOutcome (Option MaybeInlineValue) :=
  getInternalOn (Except.ok (t.get k))

/-- The blob tree: an index tree and a value log, as in the source. -/
structure BlobTree where
  index : LsmTree
  blobs : ValueLog
deriving DecidableEq, Repr

/-- Insert of the blob tree: the value is wrapped as an inline entry,
serialized, and forwarded to the index tree, as in the source. -/
def BlobTree.insert (s : BlobTree) (k v : Bytes) (seqno : Nat) : BlobTree :=
  ⟨s.index.insert k (MaybeInlineValue.serialize (.Inline v)) seqno, s.blobs⟩

/-- Remove of the blob tree: forwarded to the index tree with no value
log interaction, as in the source. -/
def BlobTree.remove (s : BlobTree) (k : Bytes) (seqno : Nat) : BlobTree :=
  ⟨s.index.remove k seqno, s.blobs⟩

/-- Point read of the blob tree, as in the source: look up and decode the
index entry; an inline entry returns its bytes, an indirect entry is
resolved through the value log and whatever option the value log returns
is returned to the caller. -/
def BlobTree.get (s : BlobTree) (k : Bytes) : GetOutcome (Option Bytes) :=
  match s.index.getInternal k with
  | .panicked m => .panicked m
  | .ok none => .ok none
  | .ok (some (.Inline bytes)) => .ok (some bytes)
  | .ok (some (.Indirect h)) => .ok (s.blobs.get h)

/-- Outcome of one step or of the whole streaming phase of the flush:
the updated writers, or an abort of the process. -/
inductive StepResult where
  | ok (bw : BlobWriter) (sw : SegmentWriter)
  | panicked (msg : String)
deriving DecidableEq, Repr

/-- One iteration of the flush loop, as in the source: the raw memtable
value is deserialized, a failure aborting with the message oops; a
pre-flush indirect entry aborts with its own message; an inline value of
length at least 4096 is separated, writing the bytes to the value-log
writer and the serialized handle, built from the segment id of the blob
writer and the offset queried immediately before the write, to the
index-segment writer under the user key and seqno of the entry; a
shorter value is written to the index-segment writer with the original
internal key and the decoded bytes. -/
def flushEntry (bw : BlobWriter) (sw : SegmentWriter) (e : MemEntry) :
    StepResult :=
  match MaybeInlineValue.deserialize e.value with
  | .err _ => .panicked "oops"
  | .panicked m => .panicked m
  | .ok mv _ =>
    match mv with
    | .Indirect _ => .panicked "values are initially always inlined"
    | .Inline v =>
      if 4096 ≤ v.length then
        let offset := bw.offset
        let handle : ValueHandle := ⟨bw.segment_id, offset⟩
        let serialized_handle := handle.serialize
        StepResult.ok (bw.write e.key.user_key v)
          (sw.write ⟨⟨e.key.user_key, e.key.seqno, .Value⟩, serialized_handle⟩)
      else
        StepResult.ok bw (sw.write ⟨e.key, v⟩)

/-- The streaming phase of the flush: the frozen memtable entries are
processed in order, the first abort ending the flush. -/
def flushLoop (bw : BlobWriter) (sw : SegmentWriter) :
    List MemEntry → StepResult
  | [] => .ok bw sw
  | e :: rest =>
    match flushEntry bw sw e with
    | .panicked m => .panicked m
    | .ok bw2 sw2 => flushLoop bw2 sw2 rest

/-- Outcome of a flush: the value the source function returns together
with the resulting state, or an abort of the process. -/
inductive FlushResult where
  | ok (r : Option Unit) (s : BlobTree)
  | panicked (msg : String)
deriving DecidableEq, Repr

/-- The flush pipeline, as in the source: rotate the memtable, returning
none with the state unchanged when there is nothing to rotate; stream the
frozen entries through the size gate; then commit by registering the
value-log writer first, finalizing the index-segment writer second, and
handing the finalized segment to the index engine third. The source
function then returns none, the literal on its last line. -/
def BlobTree.flushActiveMemtable (s : BlobTree) : FlushResult :=
  match s.index.rotateMemtable with
  | none => .ok none s
  | some (segment_id, yanked, index1) =>
    let bw0 := s.blobs.getWriter
    match flushLoop bw0 ⟨[]⟩ yanked with
    | .panicked m => .panicked m
    | .ok bw sw =>
      let blobs1 := s.blobs.register bw
      let sw1 := sw.finish
      let index2 := index1.consumeWriter segment_id sw1
      .ok none ⟨index2, blobs1⟩

/-- The three states passed through by the commit phase of the flush, in
execution order: after the value-log segment is registered, after the
index-segment writer is finalized (a writer-local step, leaving the
shared state unchanged), and after the finalized segment is handed to
the index engine. -/
def flushCommitStates (s : BlobTree) (index1 : LsmTree) (sid : Nat)
    (bw : BlobWriter) (sw : SegmentWriter) : List BlobTree :=
  [⟨index1, s.blobs.register bw⟩,
   ⟨index1, s.blobs.register bw⟩,
   ⟨index1.consumeWriter sid sw.finish, s.blobs.register bw⟩]

/-- The blob tree with no data, as produced by opening a fresh path. -/
def emptyBlobTree : BlobTree := ⟨⟨[], [], 0⟩, ⟨[], [], 0⟩⟩

/-- The blob tree after inserting value 118 under key 107 at seqno 1 and
flushing: the flushed entry sits in index segment 0 and value-log segment
0 is registered and empty. -/
def c1Flushed : BlobTree :=
  ⟨⟨[], [(0, [⟨⟨[107], 1, .Value⟩, [118]⟩])], 1⟩, ⟨[0], [(0, [])], 1⟩⟩

/-- C1: tombstones do not survive the flush pipeline. After inserting
key 107 at seqno 1 and flushing, removing the key at the higher seqno 2
makes the point read return none as claimed, but the subsequent flush
aborts the process with the message oops: the tombstone carries an empty
payload, deserializing an empty input is a short read, and the flush
unwraps that error with an expect call, so the tombstone reaches neither
the inline branch nor the new segment. -/
theorem c1_tombstone_flush_panics :
    (emptyBlobTree.insert [107] [118] 1).flushActiveMemtable =
      .ok none c1Flushed ∧
    (c1Flushed.remove [107] 2).get [107] = .ok none ∧
    (c1Flushed.remove [107] 2).flushActiveMemtable = .panicked "oops" :=
  ⟨rfl, rfl, rfl⟩

/-- The blob tree after inserting value 98 under key 97 at seqno 0. -/
def c2Start : BlobTree := emptyBlobTree.insert [97] [98] 0

/-- The blob tree the flush of c2Start commits: one index segment with
the flushed entry, and value-log segment 0 registered. -/
def c2After : BlobTree :=
  ⟨⟨[], [(0, [⟨⟨[97], 0, .Value⟩, [98]⟩])], 1⟩, ⟨[0], [(0, [])], 1⟩⟩

/-- C2: flush does return none when there is no memtable content to
rotate, but it also returns none after a successful commit, because the
last line of the source function returns the none literal; the claim
that a successful commit returns some is contradicted. The committed
state c2After holds the flushed segment, showing the flush succeeded. -/
theorem c2_flush_returns_none_after_commit :
    emptyBlobTree.flushActiveMemtable = .ok none emptyBlobTree ∧
    c2Start.flushActiveMemtable = .ok none c2After ∧
    c2After.index.segments.length = 1 :=
  ⟨rfl, rfl, rfl⟩

/-- C3: the size gate at flush. For every memtable entry whose raw value
deserializes to an inline value: when the decoded bytes have length at
least 4096 the value bytes are written to the value-log writer and the
index-segment writer receives the serialized handle built from the
segment id of the blob writer and the offset queried from the blob
writer immediately before the write, under the original user key and
seqno; when the length is strictly below 4096 the entry is written to
the index-segment writer with its original internal key and its value
bytes unchanged, and the blob writer is untouched. -/
theorem c3_size_gate (bw : BlobWriter) (sw : SegmentWriter) (e : MemEntry)
    (v rest : Bytes)
    (hdec : MaybeInlineValue.deserialize e.value = .ok (.Inline v) rest) :
    (4096 ≤ v.length →
      flushEntry bw sw e =
        .ok (bw.write e.key.user_key v)
          (sw.write ⟨⟨e.key.user_key, e.key.seqno, .Value⟩,
            (ValueHandle.mk bw.segment_id bw.offset).serialize⟩)) ∧
    (v.length < 4096 →
      flushEntry bw sw e = .ok bw (sw.write ⟨e.key, v⟩)) := by
  constructor
  · intro hlen
    simp [flushEntry, hdec, if_pos hlen]
  · intro hlen
    simp [flushEntry, hdec, if_neg (by omega : ¬ 4096 ≤ v.length)]

/-- A value of exactly the separation threshold length. -/
def bigValue : Bytes := List.replicate 4096 97

/-- A memtable entry holding the threshold-sized value, encoded inline as
entries are at ingest time. -/
def c3BigEntry : MemEntry :=
  ⟨⟨[98], 5, .Value⟩, MaybeInlineValue.serialize (.Inline bigValue)⟩

/-- A memtable entry holding a one-byte value, encoded inline. -/
def c3SmallEntry : MemEntry :=
  ⟨⟨[99], 6, .Value⟩, MaybeInlineValue.serialize (.Inline [100])⟩

/-- C3 witness: the size gate evaluated on a threshold-sized entry, which
is separated, and on a one-byte entry, which stays inline. -/
theorem c3_size_gate_witness :
    flushEntry ⟨3, [], 0⟩ ⟨[]⟩ c3BigEntry =
      .ok (BlobWriter.write ⟨3, [], 0⟩ [98] bigValue)
        (SegmentWriter.write ⟨[]⟩ ⟨⟨[98], 5, .Value⟩,
          (ValueHandle.mk 3 0).serialize⟩) ∧
    flushEntry ⟨3, [], 0⟩ ⟨[]⟩ c3SmallEntry =
      .ok ⟨3, [], 0⟩ (SegmentWriter.write ⟨[]⟩ ⟨⟨[99], 6, .Value⟩, [100]⟩) := by
  have hlen : bigValue.length = 4096 := List.length_replicate 4096 97
  have hwfBig : MaybeInlineValue.WellFormed (.Inline bigValue) := by
    show bigValue.length < 18446744073709551616
    rw [hlen]
    norm_num
  have hdecBig : MaybeInlineValue.deserialize c3BigEntry.value =
      .ok (.Inline bigValue) [] := by
    have hx := deserialize_serialize_append (.Inline bigValue) [] hwfBig
    rw [List.append_nil] at hx
    exact hx
  have hdecSmall : MaybeInlineValue.deserialize c3SmallEntry.value =
      .ok (.Inline [100]) [] := by
    have hx := deserialize_serialize_append (.Inline [100]) [] (by decide)
    rw [List.append_nil] at hx
    exact hx
  constructor
  · exact (c3_size_gate ⟨3, [], 0⟩ ⟨[]⟩ c3BigEntry bigValue [] hdecBig).1
      (by rw [hlen])
  · exact (c3_size_gate ⟨3, [], 0⟩ ⟨[]⟩ c3SmallEntry [100] [] hdecSmall).2
      (by norm_num)

/-- A blob tree whose index holds, under key 97, an indirect entry whose
handle names value-log segment 7 at offset 0, while the value log has no
segments at all: the handle dangles. -/
def c5State : BlobTree :=
  ⟨⟨[], [(0, [⟨⟨[97], 1, .Value⟩,
      MaybeInlineValue.serialize (.Indirect ⟨7, 0⟩)⟩])], 1⟩,
   ⟨[], [], 0⟩⟩

/-- C5 counterexample: the latest visible index entry of key 97 is the
indirect entry with the dangling handle and the value log returns none
for it, yet the point read returns ok none, not a data-loss error, and
the result is identical to the read of the absent key 110: the two cases
are not distinguishable. -/
theorem c5_dangling_read_is_ok_none :
    c5State.index.getInternal [97] = .ok (some (.Indirect ⟨7, 0⟩)) ∧
    c5State.blobs.get ⟨7, 0⟩ = none ∧
    c5State.get [97] = .ok none ∧
    c5State.get [110] = .ok none :=
  ⟨rfl, rfl, rfl, rfl⟩

/-- C5 amended: for every key whose latest visible index entry is an
indirect handle for which the value log returns none, the point read of
the blob tree returns ok none, the same observable result as an absent
key; no data-loss error is raised. -/
theorem c5_amended_dangling_read (s : BlobTree) (k : Bytes) (h : ValueHandle)
    (hidx : s.index.getInternal k = .ok (some (.Indirect h)))
    (hvl : s.blobs.get h = none) :
    s.get k = .ok none := by
  simp [BlobTree.get, hidx, hvl]

/-- C5 witness: the amended statement evaluated on the concrete dangling
state. -/
theorem c5_amended_dangling_read_witness : c5State.get [97] = .ok none :=
  c5_amended_dangling_read c5State [97] ⟨7, 0⟩ rfl rfl

/-- C8: get_internal never returns an error result; it aborts the
process instead. An I/O error from the underlying lookup is unwrapped
with an expect call carrying the message oh no; a stored value that is
empty fails to decode and aborts with the message should deserialize;
a stored value with tag byte 2 aborts inside the decoder with the
message Invalid tag. Only the absent-key and well-decoding paths return
ok, so I/O and decode errors are turned into crashes, contradicting the
claim that they are propagated as error results. -/
theorem c8_get_internal_panics :
    getInternalOn (.error .io) = .panicked "oh no" ∧
    getInternalOn (.ok (some [])) = .panicked "should deserialize" ∧
    getInternalOn (.ok (some [2])) = .panicked "Invalid tag" ∧
    getInternalOn (.ok none) = .ok none ∧
    getInternalOn (.ok (some (MaybeInlineValue.serialize (.Inline [5])))) =
      .ok (some (.Inline [5])) :=
  ⟨rfl, rfl, rfl, rfl, rfl⟩

/-- Outcome of the range mapper on one item: yield some item, yield
nothing (the item is dropped from the scan), or abort the process. -/
inductive MapOutcome where
  | yield (item : Option (Except TreeError (Bytes × Bytes)))
  | panicked (msg : String)

/-- The map method of the per-scan mapper, as in the source, with the
value-log lookup abstracted as the argument: an error item is forwarded
unchanged; an ok item has its raw bytes deserialized, an inline value
yielding the decoded bytes, an indirect value being resolved through the
value log, where some bytes are yielded, a none drops the item, and a
lookup error is yielded as an error after conversion. -/
def vlogMapOn (vget : ValueHandle → Except VlogError (Option Bytes))
    (item : Except TreeError (Bytes × Bytes)) : MapOutcome :=
  match item with
  | .error e => .yield (some (.error e))
  | .ok (key, value) =>
    match MaybeInlineValue.deserialize value with
    | .err _ => .panicked "should deserialize"
    | .panicked m => .panicked m
    | .ok mv _ =>
      match mv with
      | .Inline bytes => .yield (some (.ok (key, bytes)))
      | .Indirect h =>
        match vget h with
        | .ok (some bytes) => .yield (some (.ok (key, bytes)))
        | .ok none => .yield none
        | .error e => .yield (some (.error (.valueLog e)))

/-- The mapper applied along a stream of items: each item is mapped
independently and the yielded items keep the input order. -/
def mapItems (vget : ValueHandle → Except VlogError (Option Bytes))
    (items : List (Except TreeError (Bytes × Bytes))) :
    List (Except TreeError (Bytes × Bytes)) :=
  items.filterMap (fun it =>
    match vlogMapOn vget it with
    | .yield o => o
    | .panicked _ => none)

/-- C7: range mapper semantics. An ok item whose raw bytes decode to an
inline value yields the key with the decoded bytes; one that decodes to
an indirect handle is resolved through the value log, yielding the bytes
when the lookup returns some, yielding nothing when it returns none, and
yielding the converted error when the lookup errs; an error item is
forwarded unchanged; and mapping distributes over concatenation of the
input stream, so the mapper introduces no reordering or batching. -/
theorem c7_mapper (vget : ValueHandle → Except VlogError (Option Bytes))
    (k raw b : Bytes) (h : ValueHandle) (r1 r2 : Bytes) (e : TreeError) :
    (MaybeInlineValue.deserialize raw = .ok (.Inline b) r1 →
      vlogMapOn vget (.ok (k, raw)) = .yield (some (.ok (k, b)))) ∧
    (MaybeInlineValue.deserialize raw = .ok (.Indirect h) r2 →
      (∀ b2, vget h = .ok (some b2) →
        vlogMapOn vget (.ok (k, raw)) = .yield (some (.ok (k, b2)))) ∧
      (vget h = .ok none → vlogMapOn vget (.ok (k, raw)) = .yield none) ∧
      (∀ ve, vget h = .error ve →
        vlogMapOn vget (.ok (k, raw)) =
          .yield (some (.error (.valueLog ve))))) ∧
    vlogMapOn vget (.error e) = .yield (some (.error e)) ∧
    (∀ xs ys, mapItems vget (xs ++ ys) =
      mapItems vget xs ++ mapItems vget ys) := by
  refine ⟨?_, ?_, ?_, ?_⟩
  · intro hdec
    simp [vlogMapOn, hdec]
  · intro hdec
    refine ⟨?_, ?_, ?_⟩
    · intro b2 hv
      simp [vlogMapOn, hdec, hv]
    · intro hv
      simp [vlogMapOn, hdec, hv]
    · intro ve hv
      simp [vlogMapOn, hdec, hv]
  · simp [vlogMapOn]
  · intro xs ys
    simp [mapItems, List.filterMap_append]

/-- C7 witness: the mapper evaluated on a concrete inline item, on a
concrete indirect item whose handle the value log resolves to none (the
item is dropped), and on a forwarded error item. -/
theorem c7_mapper_witness :
    vlogMapOn (fun _ => .ok none)
      (.ok ([97], MaybeInlineValue.serialize (.Inline [5]))) =
      .yield (some (.ok ([97], [5]))) ∧
    vlogMapOn (fun _ => .ok none)
      (.ok ([97], MaybeInlineValue.serialize (.Indirect ⟨7, 0⟩))) =
      .yield none ∧
    vlogMapOn (fun _ => .ok none) (.error .io) =
      .yield (some (.error .io)) := by
  refine ⟨?_, ?_, ?_⟩
  · exact (c7_mapper (fun _ => .ok none) [97]
      (MaybeInlineValue.serialize (.Inline [5])) [5] ⟨7, 0⟩ [] [] .io).1 rfl
  · exact ((c7_mapper (fun _ => .ok none) [97]
      (MaybeInlineValue.serialize (.Indirect ⟨7, 0⟩)) []
      ⟨7, 0⟩ [] [] .io).2.1 rfl).2.1 rfl
  · exact (c7_mapper (fun _ => .ok none) [] [] [] ⟨7, 0⟩ [] [] .io).2.2.1

/-- A seventeen-byte user value whose first byte equals the indirect tag:
a tag byte 1 followed by eight zero bytes and then eight bytes encoding
the number 99. -/
def c9BadValue : Bytes :=
  [1, 0, 0, 0, 0, 0, 0, 0, 0, 0, 0, 0, 0, 0, 0, 0, 99]

/-- The blob tree after inserting c9BadValue under key 97 at seqno 0 and
flushing: the flush takes the inline branch (seventeen bytes is below
the threshold) and stores the decoded bytes untagged in the new index
segment, while only value-log segment 0 is registered. -/
def c9After : BlobTree :=
  ⟨⟨[], [(0, [⟨⟨[97], 0, .Value⟩, c9BadValue⟩])], 1⟩, ⟨[0], [(0, [])], 1⟩⟩

/-- C9 counterexample: after a successful flush a reader observes from
the index an indirect entry whose handle names value-log segment 99,
which is not registered. The flush wrote the small value untagged, so
its first byte is read back as the indirect tag and the point read then
resolves the phantom handle through the value log, getting none. The
commit ordering therefore does not ensure that no reader ever observes
an indirect entry whose value-log segment is unregistered. -/
theorem c9_reader_observes_unregistered_indirect :
    (emptyBlobTree.insert [97] c9BadValue 0).flushActiveMemtable =
      .ok none c9After ∧
    c9After.index.getInternal [97] = .ok (some (.Indirect ⟨99, 0⟩)) ∧
    c9After.blobs.registered.contains 99 = false ∧
    c9After.get [97] = .ok none :=
  ⟨rfl, rfl, rfl, rfl⟩

/-- C9 amended: at the end of a flush that reaches its commit phase, the
value-log segment is registered with the value log first, the
index-segment writer is finalized second, and the finalized segment is
handed to the index engine third; along all three commit states the
value-log segment of this flush is already registered, and the new index
segment, invisible through the first two states whenever its id is
fresh, becomes visible only in the last. The stronger reading of the
claim, that no reader ever observes an indirect entry naming an
unregistered value-log segment, fails for a different reason, shown by
the counterexample: inline values are written untagged at flush and can
read back as indirect entries with arbitrary segment ids. -/
theorem c9_amended_commit_order (s : BlobTree) (sid : Nat)
    (yanked : List MemEntry) (index1 : LsmTree) (bw : BlobWriter)
    (sw : SegmentWriter)
    (hrot : s.index.rotateMemtable = some (sid, yanked, index1))
    (hloop : flushLoop s.blobs.getWriter ⟨[]⟩ yanked = .ok bw sw)
    (hfresh : decide (sid ∈ index1.segments.map Prod.fst) = false) :
    s.flushActiveMemtable =
      .ok none ⟨index1.consumeWriter sid sw.finish, s.blobs.register bw⟩ ∧
    ((flushCommitStates s index1 sid bw sw).all
      (fun st => decide (bw.segment_id ∈ st.blobs.registered))) = true ∧
    decide (sid ∈ index1.segments.map Prod.fst) = false ∧
    decide (sid ∈ (index1.consumeWriter sid sw.finish).segments.map
      Prod.fst) = true := by
  refine ⟨?_, ?_, hfresh, ?_⟩
  · simp [BlobTree.flushActiveMemtable, hrot, hloop]
  · simp [flushCommitStates, ValueLog.register]
  · simp [LsmTree.consumeWriter]

/-- C9 witness: the amended commit-order statement evaluated on the
concrete one-entry tree c2Start, whose flush produces index segment 0
from value-log writer 0. -/
theorem c9_amended_commit_order_witness :
    c2Start.flushActiveMemtable =
      .ok none ⟨LsmTree.consumeWriter ⟨[], [], 1⟩ 0
        (SegmentWriter.finish ⟨[⟨⟨[97], 0, .Value⟩, [98]⟩]⟩),
        c2Start.blobs.register ⟨0, [], 0⟩⟩ ∧
    ((flushCommitStates c2Start ⟨[], [], 1⟩ 0 ⟨0, [], 0⟩
        ⟨[⟨⟨[97], 0, .Value⟩, [98]⟩]⟩).all
      (fun st => decide ((0 : Nat) ∈ st.blobs.registered))) = true ∧
    decide ((0 : Nat) ∈ (⟨[], [], 1⟩ : LsmTree).segments.map Prod.fst) =
      false ∧
    decide ((0 : Nat) ∈ (LsmTree.consumeWriter ⟨[], [], 1⟩ 0
      (SegmentWriter.finish ⟨[⟨⟨[97], 0, .Value⟩, [98]⟩]⟩)).segments.map
        Prod.fst) = true :=
  c9_amended_commit_order c2Start 0
    [⟨⟨[97], 0, .Value⟩, MaybeInlineValue.serialize (.Inline [98])⟩]
    ⟨[], [], 1⟩ ⟨0, [], 0⟩ ⟨[⟨⟨[97], 0, .Value⟩, [98]⟩]⟩ rfl rfl rfl
